import Mathlib

/-!
Shallow embedding of the BART game (src/main.py): the session-state record,
the helper functions (setup_new_trial, next_trial, handle_pump,
handle_collect), the start-form submission, and the page-driven step
relation the Streamlit UI realises.  Randomness (random.random() and the
initial random.choices draw) is modelled nondeterministically: the uniform
draw is a rational parameter of the pump step, and the color sequence is an
arbitrary list of the right length.
-/

namespace BARTGame

/-- Balloon colors, the keys of MAX_PUMPS_MAP in the source. -/
inductive Color : Type
  | Yellow
  | Orange
  | Blue
deriving DecidableEq

/-- Values taken by st.session_state['page'] in the source. -/
inductive Page : Type
  | start
  | game
  | explosion
  | game_over_explosion
  | end_
deriving DecidableEq

/-- POINTS_PER_PUMP = 5 in the source. -/
def POINTS_PER_PUMP : ℕ := 5

/-- TOTAL_TRIALS = 7 in the source. -/
def TOTAL_TRIALS : ℕ := 7

/-- MAX_PUMPS_MAP from the source: Yellow 8, Orange 16, Blue 64. -/
def MAX_PUMPS_MAP : Color → ℕ
  | Color.Yellow => 8
  | Color.Orange => 16
  | Color.Blue => 64

/-- One row appended to st.session_state['trial_data'] by next_trial.
The exploded field is the 0/1 integer the source stores. -/
structure TrialRecord : Type where
  participant_name : String
  department : String
  game_id : String
  trial_number : ℕ
  balloon_color : Color
  pumps : ℕ
  exploded : ℕ
  money_earned : ℕ
  total_money_after_trial : ℕ
deriving DecidableEq

/-- Default record used with List.getD. -/
def defaultRecord : TrialRecord :=
  { participant_name := "", department := "", game_id := "", trial_number := 0,
    balloon_color := Color.Yellow, pumps := 0, exploded := 0, money_earned := 0,
    total_money_after_trial := 0 }

/-- The st.session_state dictionary of the source, restricted to the keys
the game logic reads and writes. -/
structure AppState : Type where
  page : Page
  trial_data : List TrialRecord
  total_score : ℕ
  current_trial : ℕ
  temp_score : ℕ
  pumps : ℕ
  balloon_colors_sequence : List Color
  max_pumps_this_trial : ℕ
  participant_name : String
  department : String
  game_id : String
  balloon_size : ℕ
deriving DecidableEq

/-- The session-state initialisation block (lines 30-48 of the source),
parameterised by the random.choices draw of the color sequence.  Keys the
source only creates later (participant fields, balloon_size) start at the
neutral values; they are never read before being written. -/
def initState (seq : List Color) : AppState :=
  { page := Page.start, trial_data := [], total_score := 0, current_trial := 1,
    temp_score := 0, pumps := 0, balloon_colors_sequence := seq,
    max_pumps_this_trial := 0, participant_name := "", department := "",
    game_id := "", balloon_size := 0 }

/-- setup_new_trial from the source: sets max_pumps_this_trial from the
color of the current trial when current_trial ≤ TOTAL_TRIALS. -/
def setup_new_trial (s : AppState) : AppState :=
  if s.current_trial ≤ TOTAL_TRIALS then
    { s with max_pumps_this_trial :=
        MAX_PUMPS_MAP (s.balloon_colors_sequence.getD (s.current_trial - 1) Color.Yellow) }
  else s

/-- The is_exploded flag computed at the top of next_trial from the page. -/
def is_exploded_flag (s : AppState) : ℕ :=
  if s.page = Page.explosion then 1
  else if s.page = Page.game_over_explosion then 1
  else 0

/-- The dictionary literal appended to trial_data inside next_trial. -/
def trial_record_of (s : AppState) : TrialRecord :=
  { participant_name := s.participant_name, department := s.department,
    game_id := s.game_id, trial_number := s.current_trial,
    balloon_color := s.balloon_colors_sequence.getD (s.current_trial - 1) Color.Yellow,
    pumps := s.pumps, exploded := is_exploded_flag s,
    money_earned := if is_exploded_flag s = 0 then s.temp_score else 0,
    total_money_after_trial := s.total_score }

/-- next_trial from the source: append the record, increment current_trial,
reset temp_score and pumps, then either finish the session or set up the
next trial and return to the game page. -/
def next_trial (s : AppState) : AppState :=
  let s1 : AppState :=
    { s with trial_data := s.trial_data ++ [trial_record_of s],
             current_trial := s.current_trial + 1,
             temp_score := 0, pumps := 0 }
  if s1.current_trial > TOTAL_TRIALS then { s1 with page := Page.end_ }
  else { setup_new_trial s1 with page := Page.game }

/-- The inline probability expression of handle_pump:
prob_explosion = 1 / (max_pumps - current_pumps + 1), over exact rationals
in place of Python floats. -/
def prob_explosion (max_pumps current_pumps : ℚ) : ℚ :=
  1 / (max_pumps - current_pumps + 1)

/-- handle_pump from the source, with the uniform draw random.random()
passed in as the rational r. -/
def handle_pump (r : ℚ) (s : AppState) : AppState :=
  let s0 := if s.max_pumps_this_trial = 0 then setup_new_trial s else s
  let max_pumps := s0.max_pumps_this_trial
  let s1 := { s0 with pumps := s0.pumps + 1 }
  let current_pumps := s1.pumps
  let s2 := { s1 with temp_score := s1.temp_score + POINTS_PER_PUMP }
  let s3 :=
    if current_pumps ≥ max_pumps then { s2 with page := Page.explosion }
    else if r < prob_explosion (max_pumps : ℚ) (current_pumps : ℚ) then
      { s2 with page := Page.explosion }
    else s2
  { s3 with balloon_size := 150 + s3.pumps * 5 }

/-- handle_collect from the source: bank temp_score, then next_trial. -/
def handle_collect (s : AppState) : AppState :=
  next_trial { s with total_score := s.total_score + s.temp_score }

/-- Python str.isspace-style whitespace test used by str.strip(), over the
ASCII whitespace characters. -/
def pyIsSpace (c : Char) : Bool :=
  c = ' ' || c = '\t' || c = '\n' || c = '\r' || c = '\x0b' || c = '\x0c'

/-- Python str.strip(): remove leading and trailing whitespace. -/
def pyStrip (l : List Char) : List Char :=
  ((l.dropWhile pyIsSpace).reverse.dropWhile pyIsSpace).reverse

/-- The character map realising Python str.replace(' ', '_'). -/
def replaceSpace (c : Char) : Char := if c = ' ' then '_' else c

/-- The game_id sanitisation on submit: game_id.strip().replace(' ', '_'). -/
def sanitize_game_id (gid : String) : String :=
  String.mk ((pyStrip gid.data).map replaceSpace)

/-- The successful branch of the start_page form submission (lines 234-242):
store the participant fields with the sanitised game id, set up trial 1,
and move to the game page. -/
def start_submit (name dept gid : String) (s : AppState) : AppState :=
  let s1 := { s with participant_name := name, department := dept,
                     game_id := sanitize_game_id gid }
  { setup_new_trial s1 with page := Page.game }

/-- One user action as the Streamlit page routing admits it: the start form
submit, the PUMP and COLLECT buttons on the game page, the transition of
page explosion to game_over_explosion inside game_page, the Continue button
of the explosion page, and the reset button of the end page (which
reinitialises the session with a fresh random color draw). -/
inductive Step : AppState → AppState → Prop
  | submit (name dept gid : String) (s : AppState) :
      s.page = Page.start → name ≠ "" → dept ≠ "Select Department" → gid ≠ "" →
      Step s (start_submit name dept gid s)
  | pump (r : ℚ) (s : AppState) :
      s.page = Page.game → 0 ≤ r → r < 1 → Step s (handle_pump r s)
  | collect (s : AppState) :
      s.page = Page.game → s.pumps ≠ 0 → Step s (handle_collect s)
  | explosionAck (s : AppState) :
      s.page = Page.explosion → Step s { s with page := Page.game_over_explosion }
  | continueTrial (s : AppState) :
      s.page = Page.explosion ∨ s.page = Page.game_over_explosion →
      Step s (next_trial s)
  | reset (seq : List Color) (s : AppState) :
      s.page = Page.end_ → seq.length = TOTAL_TRIALS → Step s (initState seq)

/-- States reachable from a fresh session. -/
inductive Reachable : AppState → Prop
  | init (seq : List Color) : seq.length = TOTAL_TRIALS → Reachable (initState seq)
  | step {s t : AppState} : Reachable s → Step s t → Reachable t

/-! ## Well-formedness of the trial log, and the inductive invariant -/

/-- Well-formedness of the trial log against the color sequence: row i is
trial i+1, records the color seq[i], never exceeds the tier ceiling, uses
the 0/1 exploded encoding, earns 0 when exploded and pumps*5 otherwise, and
carries the running total of the money earned so far. -/
def recordOK (l : List TrialRecord) (seq : List Color) : Prop :=
  ∀ i, i < l.length →
    (l.getD i defaultRecord).trial_number = i + 1 ∧
    (l.getD i defaultRecord).balloon_color = seq.getD i Color.Yellow ∧
    (l.getD i defaultRecord).pumps ≤ MAX_PUMPS_MAP (l.getD i defaultRecord).balloon_color ∧
    ((l.getD i defaultRecord).exploded = 0 ∨ (l.getD i defaultRecord).exploded = 1) ∧
    ((l.getD i defaultRecord).exploded = 1 → (l.getD i defaultRecord).money_earned = 0) ∧
    ((l.getD i defaultRecord).exploded = 0 →
      (l.getD i defaultRecord).money_earned = (l.getD i defaultRecord).pumps * POINTS_PER_PUMP) ∧
    (l.getD i defaultRecord).total_money_after_trial =
      ((l.take (i + 1)).map TrialRecord.money_earned).sum

/-- The inductive invariant: everything the claims need about a reachable
session state. -/
def Inv (s : AppState) : Prop :=
  s.balloon_colors_sequence.length = TOTAL_TRIALS ∧
  s.temp_score = s.pumps * POINTS_PER_PUMP ∧
  s.current_trial = s.trial_data.length + 1 ∧
  s.trial_data.length ≤ TOTAL_TRIALS ∧
  (s.page = Page.end_ ↔ s.trial_data.length = TOTAL_TRIALS) ∧
  (s.page = Page.start → s.trial_data = [] ∧ s.pumps = 0 ∧ s.total_score = 0) ∧
  (s.page = Page.game → s.pumps < s.max_pumps_this_trial) ∧
  ((s.page = Page.game ∨ s.page = Page.explosion ∨ s.page = Page.game_over_explosion) →
      s.max_pumps_this_trial =
        MAX_PUMPS_MAP (s.balloon_colors_sequence.getD (s.current_trial - 1) Color.Yellow) ∧
      s.pumps ≤ s.max_pumps_this_trial) ∧
  s.total_score = (s.trial_data.map TrialRecord.money_earned).sum ∧
  recordOK s.trial_data s.balloon_colors_sequence

/-! ## Concrete executions used in witnesses -/

/-- A concrete color draw: seven Yellow balloons. -/
def seqY : List Color := List.replicate TOTAL_TRIALS Color.Yellow

/-- Fresh session on the all-Yellow draw. -/
def w0 : AppState := initState seqY

/-- After the start form is submitted. -/
def w1 : AppState := start_submit "alice" "Accounting" "id_1" w0

/-- One safe round: one pump with draw 9/10 (no explosion), then collect. -/
def roundW (s : AppState) : AppState := handle_collect (handle_pump (9/10) s)

def w2 : AppState := roundW w1
def w3 : AppState := roundW w2
def w4 : AppState := roundW w3
def w5 : AppState := roundW w4
def w6 : AppState := roundW w5
def w7 : AppState := roundW w6
def w8 : AppState := roundW w7

/-- A pump from w1 that survives (draw 9/10 is at least 1/8). -/
def wP : AppState := handle_pump (9/10) w1

/-- A pump from w1 that explodes (draw 1/16 is below 1/8). -/
def wE : AppState := handle_pump (1/16) w1

/-- Six successive lucky pumps from w1: pumps = 6, still on the game page. -/
def sC2 : AppState :=
  handle_pump (9/10) (handle_pump (9/10) (handle_pump (9/10)
    (handle_pump (9/10) (handle_pump (9/10) (handle_pump (9/10) w1)))))

/-- A seventh lucky pump: pumps = 7 = max - 1, still on the game page. -/
def sFull : AppState := handle_pump (9/10) sC2

/-! ## Shape lemmas for the operations -/

lemma MAX_PUMPS_MAP_pos (c : Color) : 0 < MAX_PUMPS_MAP c := by
  cases c <;> decide

lemma next_trial_eq (s : AppState) :
    next_trial s =
      if s.current_trial + 1 > TOTAL_TRIALS then
        { s with trial_data := s.trial_data ++ [trial_record_of s],
                 current_trial := s.current_trial + 1,
                 temp_score := 0, pumps := 0, page := Page.end_ }
      else
        { s with trial_data := s.trial_data ++ [trial_record_of s],
                 current_trial := s.current_trial + 1,
                 temp_score := 0, pumps := 0,
                 max_pumps_this_trial :=
                   MAX_PUMPS_MAP (s.balloon_colors_sequence.getD
                     (s.current_trial + 1 - 1) Color.Yellow),
                 page := Page.game } := by
  unfold next_trial setup_new_trial
  dsimp only
  split_ifs with h1 h2 <;> first | rfl | (exfalso; omega)

lemma handle_pump_eq (r : ℚ) (s : AppState) (hm : s.max_pumps_this_trial ≠ 0) :
    handle_pump r s =
      if s.pumps + 1 ≥ s.max_pumps_this_trial then
        { s with pumps := s.pumps + 1,
                 temp_score := s.temp_score + POINTS_PER_PUMP,
                 page := Page.explosion,
                 balloon_size := 150 + (s.pumps + 1) * 5 }
      else if r < prob_explosion (s.max_pumps_this_trial : ℚ) ((s.pumps + 1 : ℕ) : ℚ) then
        { s with pumps := s.pumps + 1,
                 temp_score := s.temp_score + POINTS_PER_PUMP,
                 page := Page.explosion,
                 balloon_size := 150 + (s.pumps + 1) * 5 }
      else
        { s with pumps := s.pumps + 1,
                 temp_score := s.temp_score + POINTS_PER_PUMP,
                 balloon_size := 150 + (s.pumps + 1) * 5 } := by
  unfold handle_pump
  dsimp only
  rw [if_neg hm]
  split_ifs <;> rfl

lemma handle_pump_pumps (r : ℚ) (s : AppState) :
    (handle_pump r s).pumps = s.pumps + 1 := by
  unfold handle_pump setup_new_trial
  dsimp only
  split_ifs <;> rfl

lemma handle_pump_trial_data (r : ℚ) (s : AppState) :
    (handle_pump r s).trial_data = s.trial_data := by
  unfold handle_pump setup_new_trial
  dsimp only
  split_ifs <;> rfl

lemma handle_pump_total_score (r : ℚ) (s : AppState) :
    (handle_pump r s).total_score = s.total_score := by
  unfold handle_pump setup_new_trial
  dsimp only
  split_ifs <;> rfl

lemma handle_pump_seq (r : ℚ) (s : AppState) :
    (handle_pump r s).balloon_colors_sequence = s.balloon_colors_sequence := by
  unfold handle_pump setup_new_trial
  dsimp only
  split_ifs <;> rfl

lemma handle_pump_current_trial (r : ℚ) (s : AppState) :
    (handle_pump r s).current_trial = s.current_trial := by
  unfold handle_pump setup_new_trial
  dsimp only
  split_ifs <;> rfl

lemma handle_pump_temp_score (r : ℚ) (s : AppState) :
    (handle_pump r s).temp_score = s.temp_score + POINTS_PER_PUMP := by
  unfold handle_pump setup_new_trial
  dsimp only
  split_ifs <;> rfl

lemma next_trial_trial_data (s : AppState) :
    (next_trial s).trial_data = s.trial_data ++ [trial_record_of s] := by
  rw [next_trial_eq]; split_ifs <;> rfl

lemma next_trial_total_score (s : AppState) :
    (next_trial s).total_score = s.total_score := by
  rw [next_trial_eq]; split_ifs <;> rfl

lemma next_trial_seq (s : AppState) :
    (next_trial s).balloon_colors_sequence = s.balloon_colors_sequence := by
  rw [next_trial_eq]; split_ifs <;> rfl

lemma handle_collect_seq (s : AppState) :
    (handle_collect s).balloon_colors_sequence = s.balloon_colors_sequence := by
  unfold handle_collect
  rw [next_trial_seq]

lemma handle_collect_total_score (s : AppState) :
    (handle_collect s).total_score = s.total_score + s.temp_score := by
  unfold handle_collect
  rw [next_trial_total_score]

lemma setup_new_trial_seq (s : AppState) :
    (setup_new_trial s).balloon_colors_sequence = s.balloon_colors_sequence := by
  unfold setup_new_trial
  split_ifs <;> rfl

lemma start_submit_seq (name dept gid : String) (s : AppState) :
    (start_submit name dept gid s).balloon_colors_sequence =
      s.balloon_colors_sequence := by
  unfold start_submit
  rw [setup_new_trial_seq]

lemma next_trial_length (s : AppState) :
    (next_trial s).trial_data.length = s.trial_data.length + 1 := by
  rw [next_trial_trial_data]
  simp

/-! ## Invariant lemmas -/

lemma recordOK_append (l : List TrialRecord) (seq : List Color) (tr : TrialRecord)
    (h : recordOK l seq)
    (h1 : tr.trial_number = l.length + 1)
    (h2 : tr.balloon_color = seq.getD l.length Color.Yellow)
    (h3 : tr.pumps ≤ MAX_PUMPS_MAP tr.balloon_color)
    (h4 : tr.exploded = 0 ∨ tr.exploded = 1)
    (h5 : tr.exploded = 1 → tr.money_earned = 0)
    (h6 : tr.exploded = 0 → tr.money_earned = tr.pumps * POINTS_PER_PUMP)
    (h7 : tr.total_money_after_trial =
      (l.map TrialRecord.money_earned).sum + tr.money_earned) :
    recordOK (l ++ [tr]) seq := by
  intro i hi
  rw [List.length_append, List.length_singleton] at hi
  rcases Nat.lt_succ_iff_lt_or_eq.mp hi with hlt | heq
  · have hget : (l ++ [tr]).getD i defaultRecord = l.getD i defaultRecord :=
      List.getD_append l [tr] defaultRecord i hlt
    have htake : (l ++ [tr]).take (i + 1) = l.take (i + 1) :=
      List.take_append_of_le_length (Nat.succ_le_of_lt hlt)
    rw [hget, htake]
    exact h i hlt
  · subst heq
    have hget : (l ++ [tr]).getD l.length defaultRecord = tr := by
      rw [List.getD_append_right l [tr] defaultRecord l.length le_rfl]
      simp
    have htake : (l ++ [tr]).take (l.length + 1) = l ++ [tr] := by
      have hl : (l ++ [tr]).length = l.length + 1 := by simp
      rw [← hl, List.take_length]
    rw [hget, htake]
    refine ⟨h1, h2, h3, h4, h5, h6, ?_⟩
    rw [List.map_append, List.sum_append]
    simpa using h7

lemma inv_initState (seq : List Color) (h : seq.length = TOTAL_TRIALS) :
    Inv (initState seq) := by
  refine ⟨h, rfl, rfl, by simp [initState], ?_, ?_, ?_, ?_, rfl, ?_⟩
  · simp [initState, TOTAL_TRIALS]
  · intro _; exact ⟨rfl, rfl, rfl⟩
  · intro hpage; exact absurd hpage (by simp [initState])
  · intro hpage
    rcases hpage with hp | hp | hp <;> exact absurd hp (by simp [initState])
  · intro i hi
    exact absurd hi (by simp [initState])

lemma is_exploded_flag_eq_zero (s : AppState) (h : s.page = Page.game) :
    is_exploded_flag s = 0 := by
  simp [is_exploded_flag, h]

lemma is_exploded_flag_eq_one (s : AppState)
    (h : s.page = Page.explosion ∨ s.page = Page.game_over_explosion) :
    is_exploded_flag s = 1 := by
  rcases h with h | h <;> simp [is_exploded_flag, h]

lemma trial_record_money_game (s : AppState) (h : s.page = Page.game) :
    (trial_record_of s).money_earned = s.temp_score := by
  simp [trial_record_of, is_exploded_flag_eq_zero s h]

lemma trial_record_money_expl (s : AppState)
    (h : s.page = Page.explosion ∨ s.page = Page.game_over_explosion) :
    (trial_record_of s).money_earned = 0 := by
  simp [trial_record_of, is_exploded_flag_eq_one s h]

lemma inv_next_trial (s : AppState)
    (hseq : s.balloon_colors_sequence.length = TOTAL_TRIALS)
    (htemp : s.temp_score = s.pumps * POINTS_PER_PUMP)
    (hct : s.current_trial = s.trial_data.length + 1)
    (hlen : s.trial_data.length < TOTAL_TRIALS)
    (hmax : s.max_pumps_this_trial =
      MAX_PUMPS_MAP (s.balloon_colors_sequence.getD (s.current_trial - 1) Color.Yellow))
    (hpumps : s.pumps ≤ s.max_pumps_this_trial)
    (hpage : s.page = Page.game ∨ s.page = Page.explosion ∨ s.page = Page.game_over_explosion)
    (htot : s.total_score = (s.trial_data.map TrialRecord.money_earned).sum +
      (if s.page = Page.game then s.temp_score else 0))
    (hrec : recordOK s.trial_data s.balloon_colors_sequence) :
    Inv (next_trial s) := by
  have hflag01 : is_exploded_flag s = 0 ∨ is_exploded_flag s = 1 := by
    unfold is_exploded_flag; split_ifs <;> simp
  have hmoney : s.total_score =
      (s.trial_data.map TrialRecord.money_earned).sum + (trial_record_of s).money_earned := by
    rcases hpage with h | h
    · rw [trial_record_money_game s h, htot, if_pos h]
    · rw [trial_record_money_expl s h, htot]
      rcases h with h | h <;> simp [h]
  have hrn : (trial_record_of s).trial_number = s.trial_data.length + 1 := by
    simp [trial_record_of, hct]
  have hcol : (trial_record_of s).balloon_color =
      s.balloon_colors_sequence.getD s.trial_data.length Color.Yellow := by
    simp [trial_record_of, hct]
  have hpk : (trial_record_of s).pumps ≤
      MAX_PUMPS_MAP (trial_record_of s).balloon_color := by
    have hc : (trial_record_of s).balloon_color =
        s.balloon_colors_sequence.getD (s.current_trial - 1) Color.Yellow := rfl
    rw [show (trial_record_of s).pumps = s.pumps from rfl, hc, ← hmax]
    exact hpumps
  have hexp : (trial_record_of s).exploded = 0 ∨ (trial_record_of s).exploded = 1 := hflag01
  have h5 : (trial_record_of s).exploded = 1 → (trial_record_of s).money_earned = 0 := by
    intro h
    have hf : is_exploded_flag s = 1 := h
    simp [trial_record_of, hf]
  have h6 : (trial_record_of s).exploded = 0 →
      (trial_record_of s).money_earned = (trial_record_of s).pumps * POINTS_PER_PUMP := by
    intro h
    have hf : is_exploded_flag s = 0 := h
    simp [trial_record_of, hf, htemp]
  have hrecnew : recordOK (s.trial_data ++ [trial_record_of s]) s.balloon_colors_sequence :=
    recordOK_append s.trial_data s.balloon_colors_sequence (trial_record_of s)
      hrec hrn hcol hpk hexp h5 h6 hmoney
  rw [next_trial_eq]
  split_ifs with hgt
  · refine ⟨hseq, by simp, ?_, ?_, ?_, by simp, by simp, by simp, ?_, hrecnew⟩
    · simp only [List.length_append, List.length_singleton]
      omega
    · simp only [List.length_append, List.length_singleton]
      omega
    · simp only [List.length_append, List.length_singleton]
      constructor
      · intro _; omega
      · intro _; trivial
    · simp only [List.map_append, List.sum_append, List.map_singleton, List.sum_singleton]
      exact hmoney
  · refine ⟨hseq, by simp, ?_, ?_, ?_, by simp, ?_, ?_, ?_, hrecnew⟩
    · simp only [List.length_append, List.length_singleton]
      omega
    · simp only [List.length_append, List.length_singleton]
      omega
    · simp only [List.length_append, List.length_singleton]
      constructor
      · intro h; exact absurd h (by simp)
      · intro h; omega
    · intro _
      exact MAX_PUMPS_MAP_pos _
    · intro _
      exact ⟨rfl, Nat.zero_le _⟩
    · simp only [List.map_append, List.sum_append, List.map_singleton, List.sum_singleton]
      exact hmoney

lemma start_submit_eq (name dept gid : String) (s : AppState)
    (h : s.current_trial ≤ TOTAL_TRIALS) :
    start_submit name dept gid s =
      { s with participant_name := name, department := dept,
               game_id := sanitize_game_id gid,
               max_pumps_this_trial :=
                 MAX_PUMPS_MAP (s.balloon_colors_sequence.getD
                   (s.current_trial - 1) Color.Yellow),
               page := Page.game } := by
  unfold start_submit setup_new_trial
  dsimp only
  split_ifs
  rfl

lemma inv_step {s t : AppState} (hs : Inv s) (hst : Step s t) : Inv t := by
  obtain ⟨hseq, htemp, hct, hlen, hiff, hstart, hgame, hgroup, htot, hrec⟩ := hs
  cases hst with
  | submit name dept gid s2 hpage hn hd hg =>
    obtain ⟨hdata, hpumps0, htot0⟩ := hstart hpage
    have hct1 : s.current_trial = 1 := by rw [hct, hdata]; rfl
    have hle : s.current_trial ≤ TOTAL_TRIALS := by rw [hct1]; decide
    rw [start_submit_eq name dept gid s hle]
    refine ⟨hseq, htemp, hct, hlen, ?_, by simp, ?_, ?_, htot, hrec⟩
    · simp [hdata, TOTAL_TRIALS]
    · intro _
      show s.pumps < MAX_PUMPS_MAP _
      rw [hpumps0]
      exact MAX_PUMPS_MAP_pos _
    · intro _
      refine ⟨rfl, ?_⟩
      show s.pumps ≤ MAX_PUMPS_MAP _
      rw [hpumps0]
      exact Nat.zero_le _
  | pump r s2 hpage h0 h1 =>
    have hlt : s.pumps < s.max_pumps_this_trial := hgame hpage
    have hm0 : s.max_pumps_this_trial ≠ 0 := by omega
    have hlenne : s.trial_data.length ≠ TOTAL_TRIALS := by
      intro h
      have he := hiff.mpr h
      rw [he] at hpage
      exact absurd hpage (by simp)
    obtain ⟨hmaxeq, hple⟩ := hgroup (Or.inl hpage)
    rw [handle_pump_eq r s hm0]
    split_ifs with hge hr
    · refine ⟨hseq, ?_, hct, hlen, by simp [hlenne], by simp, by simp, ?_, htot, hrec⟩
      · show s.temp_score + POINTS_PER_PUMP = (s.pumps + 1) * POINTS_PER_PUMP
        rw [htemp]; ring
      · intro _
        refine ⟨hmaxeq, ?_⟩
        show s.pumps + 1 ≤ s.max_pumps_this_trial
        omega
    · refine ⟨hseq, ?_, hct, hlen, by simp [hlenne], by simp, by simp, ?_, htot, hrec⟩
      · show s.temp_score + POINTS_PER_PUMP = (s.pumps + 1) * POINTS_PER_PUMP
        rw [htemp]; ring
      · intro _
        refine ⟨hmaxeq, ?_⟩
        show s.pumps + 1 ≤ s.max_pumps_this_trial
        omega
    · refine ⟨hseq, ?_, hct, hlen, by simp [hlenne, hpage], by simp [hpage], ?_, ?_,
        htot, hrec⟩
      · show s.temp_score + POINTS_PER_PUMP = (s.pumps + 1) * POINTS_PER_PUMP
        rw [htemp]; ring
      · intro _
        show s.pumps + 1 < s.max_pumps_this_trial
        omega
      · intro _
        refine ⟨hmaxeq, ?_⟩
        show s.pumps + 1 ≤ s.max_pumps_this_trial
        omega
  | collect s2 hpage hp0 =>
    have hlenne : s.trial_data.length ≠ TOTAL_TRIALS := by
      intro h
      have he := hiff.mpr h
      rw [he] at hpage
      exact absurd hpage (by simp)
    obtain ⟨hmaxeq, hple⟩ := hgroup (Or.inl hpage)
    unfold handle_collect
    refine inv_next_trial _ hseq htemp hct
      (show s.trial_data.length < TOTAL_TRIALS by omega)
      hmaxeq hple (Or.inl hpage) ?_ hrec
    show s.total_score + s.temp_score = _ + _
    rw [if_pos hpage, htot]
  | explosionAck s2 hpage =>
    have hlenne : s.trial_data.length ≠ TOTAL_TRIALS := by
      intro h
      have he := hiff.mpr h
      rw [he] at hpage
      exact absurd hpage (by simp)
    refine ⟨hseq, htemp, hct, hlen, by simp [hlenne], by simp, by simp, ?_, htot, hrec⟩
    intro _
    exact hgroup (Or.inr (Or.inl hpage))
  | continueTrial s2 hpage =>
    have hne : s.page ≠ Page.end_ := by
      rcases hpage with h | h <;> simp [h]
    have hlenne : s.trial_data.length ≠ TOTAL_TRIALS := by
      intro h
      exact hne (hiff.mpr h)
    obtain ⟨hmaxeq, hple⟩ := hgroup (Or.inr hpage)
    refine inv_next_trial _ hseq htemp hct (by omega) hmaxeq hple (Or.inr hpage) ?_ hrec
    rcases hpage with h | h <;> simp [h, htot]
  | reset seq s2 hpage hl =>
    exact inv_initState seq hl

/-- Every reachable state satisfies the invariant. -/
lemma reachable_inv {s : AppState} (h : Reachable s) : Inv s := by
  induction h with
  | init seq hl => exact inv_initState seq hl
  | step hr hst ih => exact inv_step ih hst

/-! ## Reachability of the concrete executions -/

section ConcreteRuns

attribute [local semireducible] Rat.inv Rat.mul Rat.add Rat.sub

lemma reach_w1 : Reachable w1 :=
  (Reachable.init seqY rfl).step
    (Step.submit "alice" "Accounting" "id_1" w0 rfl (by decide) (by decide) (by decide))

lemma reach_pump9 (s : AppState) (h : Reachable s) (hp : s.page = Page.game) :
    Reachable (handle_pump (9/10) s) :=
  h.step (Step.pump (9/10) s hp (by decide) (by decide))

lemma reach_roundW (s : AppState) (h : Reachable s) (hp : s.page = Page.game)
    (hp2 : (handle_pump (9/10) s).page = Page.game) : Reachable (roundW s) :=
  (reach_pump9 s h hp).step
    (Step.collect (handle_pump (9/10) s) hp2
      (by rw [handle_pump_pumps]; exact Nat.succ_ne_zero _))

lemma reach_w2 : Reachable w2 := reach_roundW w1 reach_w1 (by decide) (by decide)

lemma reach_w3 : Reachable w3 := reach_roundW w2 reach_w2 (by decide) (by decide)

lemma reach_w4 : Reachable w4 := reach_roundW w3 reach_w3 (by decide) (by decide)

lemma reach_w5 : Reachable w5 := reach_roundW w4 reach_w4 (by decide) (by decide)

lemma reach_w6 : Reachable w6 := reach_roundW w5 reach_w5 (by decide) (by decide)

lemma reach_w7 : Reachable w7 := reach_roundW w6 reach_w6 (by decide) (by decide)

lemma reach_w8 : Reachable w8 := reach_roundW w7 reach_w7 (by decide) (by decide)

lemma reach_wP : Reachable wP := reach_pump9 w1 reach_w1 (by decide)

lemma reach_sC2 : Reachable sC2 :=
  reach_pump9 _ (reach_pump9 _ (reach_pump9 _ (reach_pump9 _ (reach_pump9 _
    (reach_pump9 _ reach_w1 (by decide)) (by decide)) (by decide)) (by decide))
      (by decide)) (by decide)

lemma reach_sFull : Reachable sFull := reach_pump9 _ reach_sC2 (by decide)

end ConcreteRuns

/-! ## Additional shape lemmas -/

lemma start_submit_trial_data (name dept gid : String) (s : AppState) :
    (start_submit name dept gid s).trial_data = s.trial_data := by
  unfold start_submit setup_new_trial
  dsimp only
  split_ifs <;> rfl

/-! ## The claims -/

section Claims

attribute [local semireducible] Rat.inv Rat.mul Rat.add Rat.sub

/-- Claim C1: for every trial and tier, the pump that makes pump_count reach
max_pumps explodes deterministically, without consulting the random draw
(the result is the same for every draw), and consequently no finalized
trial record ever has pumps above the ceiling of its recorded tier. -/
theorem pump_ceiling_deterministic :
    (∀ (s : AppState) (r r2 : ℚ), s.max_pumps_this_trial ≠ 0 →
        s.pumps + 1 ≥ s.max_pumps_this_trial →
        handle_pump r s = handle_pump r2 s ∧
        (handle_pump r s).page = Page.explosion) ∧
    (∀ s : AppState, Reachable s → ∀ tr ∈ s.trial_data,
        tr.pumps ≤ MAX_PUMPS_MAP tr.balloon_color) := by
  constructor
  · intro s r r2 hm hge
    rw [handle_pump_eq r s hm, handle_pump_eq r2 s hm, if_pos hge, if_pos hge]
    exact ⟨rfl, rfl⟩
  · intro s hs tr htr
    obtain ⟨-, -, -, -, -, -, -, -, -, hrec⟩ := reachable_inv hs
    obtain ⟨i, hi, he⟩ := List.mem_iff_getElem.mp htr
    have hd : s.trial_data.getD i defaultRecord = tr := by
      rw [List.getD_eq_getElem s.trial_data defaultRecord hi]
      exact he
    have h3 := (hrec i hi).2.2.1
    rw [hd] at h3
    exact h3

/-- Claim C1 witness: on the concrete state with seven pumps on a Yellow
balloon, the eighth pump explodes identically for two different draws, and
the first row of a finished concrete session respects its ceiling. -/
theorem pump_ceiling_deterministic_witness :
    (handle_pump (1/3) sFull = handle_pump (2/3) sFull ∧
      (handle_pump (1/3) sFull).page = Page.explosion) ∧
    (w8.trial_data.getD 0 defaultRecord).pumps ≤
      MAX_PUMPS_MAP (w8.trial_data.getD 0 defaultRecord).balloon_color := by
  constructor
  · exact pump_ceiling_deterministic.1 sFull (1/3) (2/3) (by decide) (by decide)
  · exact pump_ceiling_deterministic.2 w8 reach_w8
      (w8.trial_data.getD 0 defaultRecord) (by decide)

/-- Claim C2 counterexample: on a Yellow balloon (max 8) with six pumps
taken, the seventh pump — the one reaching max_pumps - 1 — compares the
draw against 1/2, not 1: the probability formula gives 1/2, and the draw
3/5 (below 1) survives the pump. -/
theorem pump_near_ceiling_prob_not_one :
    sC2.max_pumps_this_trial = 8 ∧ sC2.pumps + 1 = 7 ∧
    prob_explosion 8 7 = 1/2 ∧ ((1:ℚ)/2 ≠ 1) ∧
    (handle_pump (3/5) sC2).page = Page.game := by
  refine ⟨by decide, by decide, by decide, by decide, by decide⟩

/-- Claim C2 amended: the probability compared on the pump that reaches
max_pumps - 1 is 1/2, not 1; over the whole probabilistic regime the
probability stays at most 1/2 and below 1.  The certain pop at the ceiling
comes from the deterministic branch, not from the probability. -/
theorem pump_near_ceiling_prob_half :
    (∀ (s : AppState) (r : ℚ) (M : ℕ), s.page = Page.game →
        s.max_pumps_this_trial = M → s.pumps + 2 = M →
        ((handle_pump r s).page = Page.explosion ↔ r < (1:ℚ)/2)) ∧
    (∀ M p : ℕ, 1 ≤ p → p < M →
        prob_explosion (M : ℚ) (p : ℚ) ≤ (1:ℚ)/2 ∧
        prob_explosion (M : ℚ) (p : ℚ) < 1) := by
  constructor
  · intro s r M hpage hM hp2
    subst hM
    have hm : s.max_pumps_this_trial ≠ 0 := by omega
    have hcast : (s.max_pumps_this_trial : ℚ) - ((s.pumps + 1 : ℕ) : ℚ) + 1 = 2 := by
      rw [← hp2]
      push_cast
      ring
    have hprobeq : prob_explosion (s.max_pumps_this_trial : ℚ)
        ((s.pumps + 1 : ℕ) : ℚ) = 1/2 := by
      unfold prob_explosion
      rw [hcast]
    rw [handle_pump_eq r s hm, if_neg (by omega), hprobeq]
    split_ifs with hr
    · exact iff_of_true rfl hr
    · exact iff_of_false (by rw [hpage]; simp) hr
  · intro M p h1 h2
    have hple : (p : ℚ) + 1 ≤ (M : ℚ) := by exact_mod_cast h2
    have hd : (2:ℚ) ≤ (M : ℚ) - (p : ℚ) + 1 := by linarith
    have hle : prob_explosion (M : ℚ) (p : ℚ) ≤ (1:ℚ)/2 := by
      unfold prob_explosion
      exact one_div_le_one_div_of_le (by norm_num) hd
    exact ⟨hle, by linarith⟩

/-- Claim C2 amended witness: at the concrete six-pump Yellow state the
seventh pump explodes exactly when the draw is below 1/2; the formula on a
Yellow balloon at pump 7 is at most 1/2 and below 1. -/
theorem pump_near_ceiling_prob_half_witness :
    ((handle_pump (1/4) sC2).page = Page.explosion ↔ (1/4 : ℚ) < (1:ℚ)/2) ∧
    (prob_explosion ((8:ℕ) : ℚ) ((7:ℕ) : ℚ) ≤ (1:ℚ)/2 ∧
      prob_explosion ((8:ℕ) : ℚ) ((7:ℕ) : ℚ) < 1) :=
  ⟨pump_near_ceiling_prob_half.1 sC2 (1/4) 8 (by decide) (by decide) (by decide),
   pump_near_ceiling_prob_half.2 8 7 (by decide) (by decide)⟩

/-- Claim C3: for pumps in the probabilistic regime (post-increment
pump_count below max_pumps), the pump explodes exactly when the draw is
below 1 / (max_pumps - pump_count + 1), and that threshold is strictly
increasing in pump_count. -/
theorem pump_probability_formula :
    (∀ (s : AppState) (r : ℚ) (M : ℕ), s.page = Page.game →
        s.max_pumps_this_trial = M → M ≠ 0 → s.pumps + 1 < M →
        ((handle_pump r s).page = Page.explosion ↔
          r < 1 / ((M : ℚ) - ((s.pumps + 1 : ℕ) : ℚ) + 1))) ∧
    (∀ M p q : ℕ, 1 ≤ p → p < q → q < M →
        1 / ((M : ℚ) - (p : ℚ) + 1) < 1 / ((M : ℚ) - (q : ℚ) + 1)) := by
  constructor
  · intro s r M hpage hM hm0 hlt
    subst hM
    have hm : s.max_pumps_this_trial ≠ 0 := hm0
    rw [handle_pump_eq r s hm, if_neg (by omega)]
    unfold prob_explosion
    split_ifs with hr
    · exact iff_of_true rfl hr
    · exact iff_of_false (by rw [hpage]; simp) hr
  · intro M p q h1 h2 h3
    have hq : (q : ℚ) < (M : ℚ) := by exact_mod_cast h3
    have hpq : (p : ℚ) < (q : ℚ) := by exact_mod_cast h2
    have hdq : (0:ℚ) < (M : ℚ) - (q : ℚ) + 1 := by linarith
    have hlt : (M : ℚ) - (q : ℚ) + 1 < (M : ℚ) - (p : ℚ) + 1 := by linarith
    exact one_div_lt_one_div_of_lt hdq hlt

/-- Claim C3 witness: at the concrete six-pump Yellow state the threshold
for the seventh pump is 1/(8-7+1) and the draw 1/4 explodes; the threshold
at pump 2 exceeds the threshold at pump 1 on a Yellow balloon. -/
theorem pump_probability_formula_witness :
    ((handle_pump (1/4) sC2).page = Page.explosion ↔
      (1/4 : ℚ) < 1 / (((8:ℕ) : ℚ) - ((sC2.pumps + 1 : ℕ) : ℚ) + 1)) ∧
    (1 / (((8:ℕ) : ℚ) - ((1:ℕ) : ℚ) + 1) < 1 / (((8:ℕ) : ℚ) - ((2:ℕ) : ℚ) + 1)) :=
  ⟨pump_probability_formula.1 sC2 (1/4) 8 (by decide) (by decide) (by decide) (by decide),
   pump_probability_formula.2 8 1 2 (by decide) (by decide) (by decide)⟩

/-- Claim C4: a collected trial appends a record with exploded = 0,
money_earned equal to temp_score (which is pumps * POINTS_PER_PUMP), and
raises total_score by exactly temp_score; an exploded trial appends a
record with exploded = 1 and money_earned = 0 and leaves total_score
unchanged (pumping never touches total_score either). -/
theorem trial_outcome_scoring :
    (∀ s : AppState, Reachable s → s.page = Page.game →
        (handle_collect s).trial_data = s.trial_data ++
          [trial_record_of { s with total_score := s.total_score + s.temp_score }] ∧
        (trial_record_of { s with
          total_score := s.total_score + s.temp_score }).exploded = 0 ∧
        (trial_record_of { s with
          total_score := s.total_score + s.temp_score }).money_earned = s.temp_score ∧
        (trial_record_of { s with
          total_score := s.total_score + s.temp_score }).money_earned =
            s.pumps * POINTS_PER_PUMP ∧
        (handle_collect s).total_score = s.total_score + s.temp_score) ∧
    (∀ s : AppState, s.page = Page.explosion ∨ s.page = Page.game_over_explosion →
        (next_trial s).trial_data = s.trial_data ++ [trial_record_of s] ∧
        (trial_record_of s).exploded = 1 ∧
        (trial_record_of s).money_earned = 0 ∧
        (next_trial s).total_score = s.total_score) ∧
    (∀ (r : ℚ) (s : AppState), (handle_pump r s).total_score = s.total_score) := by
  refine ⟨?_, ?_, handle_pump_total_score⟩
  · intro s hs hpage
    obtain ⟨-, htemp, -, -, -, -, -, -, -, -⟩ := reachable_inv hs
    have hpc : ({ s with total_score := s.total_score + s.temp_score } :
        AppState).page = Page.game := hpage
    refine ⟨next_trial_trial_data _, is_exploded_flag_eq_zero _ hpc, ?_, ?_,
      handle_collect_total_score s⟩
    · exact trial_record_money_game _ hpc
    · rw [trial_record_money_game _ hpc]
      exact htemp
  · intro s hpage
    exact ⟨next_trial_trial_data s, is_exploded_flag_eq_one s hpage,
      trial_record_money_expl s hpage, next_trial_total_score s⟩

/-- Claim C4 witness: collecting after one surviving pump banks 5 and the
record earns pumps * 5; finalizing the concrete exploded state earns 0 and
leaves the total unchanged; a pump never changes the total. -/
theorem trial_outcome_scoring_witness :
    (handle_collect wP).total_score = wP.total_score + wP.temp_score ∧
    (trial_record_of { wP with
      total_score := wP.total_score + wP.temp_score }).money_earned =
        wP.pumps * POINTS_PER_PUMP ∧
    (trial_record_of wE).money_earned = 0 ∧
    (next_trial wE).total_score = wE.total_score ∧
    (handle_pump (1/2) wP).total_score = wP.total_score := by
  obtain h1 := trial_outcome_scoring.1 wP reach_wP (by decide)
  obtain h2 := trial_outcome_scoring.2.1 wE (Or.inl (by decide))
  exact ⟨h1.2.2.2.2, h1.2.2.2.1, h2.2.2.1, h2.2.2.2, trial_outcome_scoring.2.2 (1/2) wP⟩

/-- Claim C5: on the end page the trial log has TOTAL_TRIALS rows; row i
carries trial_number i+1 (so rows run 1..TOTAL_TRIALS in ascending order)
and total_money_after_trial equal to the cumulative sum of money_earned of
the rows up to and including it. -/
theorem export_rows_cumulative (s : AppState) (hs : Reachable s)
    (he : s.page = Page.end_) :
    s.trial_data.length = TOTAL_TRIALS ∧
    ∀ i, i < s.trial_data.length →
      (s.trial_data.getD i defaultRecord).trial_number = i + 1 ∧
      (s.trial_data.getD i defaultRecord).total_money_after_trial =
        ((s.trial_data.take (i + 1)).map TrialRecord.money_earned).sum := by
  obtain ⟨-, -, -, -, hiff, -, -, -, -, hrec⟩ := reachable_inv hs
  refine ⟨hiff.mp he, fun i hi => ?_⟩
  obtain ⟨h1, -, -, -, -, -, h7⟩ := hrec i hi
  exact ⟨h1, h7⟩

/-- Claim C5 witness: the concrete completed session has 7 rows, its last
row is trial 7 and its running total is the sum of all seven
money_earned values. -/
theorem export_rows_cumulative_witness :
    w8.trial_data.length = TOTAL_TRIALS ∧
    (w8.trial_data.getD 6 defaultRecord).trial_number = 6 + 1 ∧
    (w8.trial_data.getD 6 defaultRecord).total_money_after_trial =
      ((w8.trial_data.take 7).map TrialRecord.money_earned).sum := by
  obtain ⟨hl, hall⟩ := export_rows_cumulative w8 reach_w8 (by decide)
  obtain ⟨ha, hb⟩ := hall 6 (by decide)
  exact ⟨hl, ha, hb⟩

/-- Claim C6: next_trial appends exactly one record; every step of the
session either extends the log at the end (so no record is removed or
mutated) or, only on the end-page reset, starts a fresh empty log; a
reachable state is on the end page precisely when the log holds
TOTAL_TRIALS records. -/
theorem trial_log_append_only :
    (∀ s : AppState,
        (next_trial s).trial_data = s.trial_data ++ [trial_record_of s]) ∧
    (∀ s t : AppState, Step s t →
        (∃ l, t.trial_data = s.trial_data ++ l) ∨ t.trial_data = []) ∧
    (∀ s : AppState, Reachable s →
        (s.page = Page.end_ ↔ s.trial_data.length = TOTAL_TRIALS)) := by
  refine ⟨next_trial_trial_data, ?_, ?_⟩
  · intro s t hst
    cases hst with
    | submit name dept gid s2 h1 h2 h3 h4 =>
        exact Or.inl ⟨[], by rw [start_submit_trial_data, List.append_nil]⟩
    | pump r s2 h1 h2 h3 =>
        exact Or.inl ⟨[], by rw [handle_pump_trial_data, List.append_nil]⟩
    | collect s2 h1 h2 =>
        exact Or.inl ⟨[trial_record_of { s with
          total_score := s.total_score + s.temp_score }], next_trial_trial_data _⟩
    | explosionAck s2 h1 =>
        exact Or.inl ⟨[], by rw [List.append_nil]⟩
    | continueTrial s2 h1 =>
        exact Or.inl ⟨[trial_record_of s], next_trial_trial_data s⟩
    | reset seq s2 h1 h2 =>
        exact Or.inr rfl
  · intro s hs
    obtain ⟨-, -, -, -, hiff, -, -, -, -, -⟩ := reachable_inv hs
    exact hiff

/-- Claim C6 witness: after the submitted start state, next_trial appends
exactly its record; the concrete pump step never shrinks the log; the
concrete completed session is on the end page and holds exactly
TOTAL_TRIALS records. -/
theorem trial_log_append_only_witness :
    (next_trial w1).trial_data = w1.trial_data ++ [trial_record_of w1] ∧
    (w1.trial_data.length ≤ wP.trial_data.length ∨ wP.trial_data = []) ∧
    (w8.page = Page.end_ ↔ w8.trial_data.length = TOTAL_TRIALS) := by
  refine ⟨trial_log_append_only.1 w1, ?_, trial_log_append_only.2.2 w8 reach_w8⟩
  rcases trial_log_append_only.2.1 w1 wP
      (Step.pump (9/10) w1 (by decide) (by decide) (by decide)) with h | h
  · obtain ⟨l, hl⟩ := h
    left
    rw [hl, List.length_append]
    omega
  · exact Or.inr h

/-- Claim C7: the color sequence drawn at session start is never altered by
any operation; in every reachable state it has length TOTAL_TRIALS, every
recorded row's color is the sequence entry of its trial, and the active
trial's ceiling is the ceiling of tier_sequence[current_trial - 1]. -/
theorem tier_sequence_fixed :
    (∀ (r : ℚ) (s : AppState),
        (handle_pump r s).balloon_colors_sequence = s.balloon_colors_sequence) ∧
    (∀ s : AppState,
        (handle_collect s).balloon_colors_sequence = s.balloon_colors_sequence) ∧
    (∀ s : AppState,
        (next_trial s).balloon_colors_sequence = s.balloon_colors_sequence) ∧
    (∀ s : AppState,
        (setup_new_trial s).balloon_colors_sequence = s.balloon_colors_sequence) ∧
    (∀ (name dept gid : String) (s : AppState),
        (start_submit name dept gid s).balloon_colors_sequence =
          s.balloon_colors_sequence) ∧
    (∀ s : AppState, Reachable s →
        s.balloon_colors_sequence.length = TOTAL_TRIALS ∧
        (∀ i, i < s.trial_data.length →
          (s.trial_data.getD i defaultRecord).balloon_color =
            s.balloon_colors_sequence.getD i Color.Yellow) ∧
        ((s.page = Page.game ∨ s.page = Page.explosion ∨
            s.page = Page.game_over_explosion) →
          s.max_pumps_this_trial = MAX_PUMPS_MAP
            (s.balloon_colors_sequence.getD (s.current_trial - 1) Color.Yellow))) := by
  refine ⟨handle_pump_seq, handle_collect_seq, next_trial_seq, setup_new_trial_seq,
    start_submit_seq, ?_⟩
  intro s hs
  obtain ⟨hseq, -, -, -, -, -, -, hgroup, -, hrec⟩ := reachable_inv hs
  exact ⟨hseq, fun i hi => (hrec i hi).2.1, fun hp => (hgroup hp).1⟩

/-- Claim C7 witness: pumping and finalizing leave the concrete sequence
unchanged; the finished concrete session's sequence has length 7, its first
row records the first sequence entry, and the submitted state's ceiling is
derived from the sequence at index current_trial - 1. -/
theorem tier_sequence_fixed_witness :
    (handle_pump (1/2) w1).balloon_colors_sequence = w1.balloon_colors_sequence ∧
    (next_trial w1).balloon_colors_sequence = w1.balloon_colors_sequence ∧
    w8.balloon_colors_sequence.length = TOTAL_TRIALS ∧
    (w8.trial_data.getD 0 defaultRecord).balloon_color =
      w8.balloon_colors_sequence.getD 0 Color.Yellow ∧
    w1.max_pumps_this_trial = MAX_PUMPS_MAP
      (w1.balloon_colors_sequence.getD (w1.current_trial - 1) Color.Yellow) := by
  obtain ⟨hlen, hcol, -⟩ := tier_sequence_fixed.2.2.2.2.2 w8 reach_w8
  obtain ⟨-, -, hmax⟩ := tier_sequence_fixed.2.2.2.2.2 w1 reach_w1
  exact ⟨tier_sequence_fixed.1 (1/2) w1, tier_sequence_fixed.2.2.1 w1, hlen,
    hcol 0 (by decide), hmax (Or.inl (by decide))⟩

/-- Claim C8 counterexample: on the concrete already-exploded state,
handle_pump and handle_collect are not rejected and silently mutate state:
the pump increments pumps and the collect adds the lost temp_score of 5 to
total_score. -/
theorem ended_trial_ops_not_rejected :
    wE.page = Page.explosion ∧
    (handle_pump (1/2) wE).pumps = wE.pumps + 1 ∧
    handle_pump (1/2) wE ≠ wE ∧
    (handle_collect wE).total_score = wE.total_score + wE.temp_score ∧
    wE.temp_score = 5 := by
  refine ⟨by decide, by decide, by decide, by decide, by decide⟩

/-- Claim C8 amended: the trial operations perform no precondition check at
all — on every state, ended or not, pump increments the pump count, collect
banks temp_score into the total, and next_trial appends one more record;
no invocation is rejected, and the page routing of the UI is the only
guard against calls on an ended trial. -/
theorem ended_trial_ops_proceed :
    (∀ (r : ℚ) (s : AppState), (handle_pump r s).pumps = s.pumps + 1) ∧
    (∀ s : AppState, (handle_collect s).total_score = s.total_score + s.temp_score) ∧
    (∀ s : AppState, (next_trial s).trial_data.length = s.trial_data.length + 1) :=
  ⟨handle_pump_pumps, handle_collect_total_score, next_trial_length⟩

/-- Claim C9 counterexample: the stored game_id for the submitted input
containing an interior tab keeps the tab, which is a whitespace
character. -/
theorem game_id_whitespace_remains :
    sanitize_game_id "a\tb" = "a\tb" ∧
    (sanitize_game_id "a\tb").data.any pyIsSpace = true := by
  exact ⟨by decide, by decide⟩

/-- Claim C9 amended: the stored game_id never contains the space character
(leading and trailing whitespace is stripped and interior spaces become
underscores), but other interior whitespace characters such as tab may
remain. -/
theorem game_id_no_space (gid : String) :
    (sanitize_game_id gid).data.count ' ' = 0 := by
  rw [List.count_eq_zero]
  intro hmem
  have hdata : (sanitize_game_id gid).data = (pyStrip gid.data).map replaceSpace := rfl
  rw [hdata] at hmem
  obtain ⟨c, -, hc⟩ := List.mem_map.mp hmem
  unfold replaceSpace at hc
  split_ifs at hc with h
  · exact absurd hc (by decide)
  · exact h hc

/-- Claim C10: in every reachable state on the game, explosion or
game-over-explosion pages — exactly the places that index the color
sequence with current_trial - 1 — current_trial lies between 1 and
TOTAL_TRIALS and the index is within the bounds of the sequence. -/
theorem tier_lookup_in_bounds (s : AppState) (hs : Reachable s)
    (hp : s.page = Page.game ∨ s.page = Page.explosion ∨
      s.page = Page.game_over_explosion) :
    1 ≤ s.current_trial ∧ s.current_trial ≤ TOTAL_TRIALS ∧
    s.current_trial - 1 < s.balloon_colors_sequence.length := by
  obtain ⟨hseq, -, hct, hlen, hiff, -, -, -, -, -⟩ := reachable_inv hs
  have hne : s.page ≠ Page.end_ := by
    rcases hp with h | h | h <;> simp [h]
  have hlt : s.trial_data.length ≠ TOTAL_TRIALS := fun h => hne (hiff.mpr h)
  refine ⟨by omega, by omega, ?_⟩
  rw [hseq]
  omega

/-- Claim C10 witness: the submitted start state is on the game page with
current_trial 1, within the bounds of its length-7 sequence. -/
theorem tier_lookup_in_bounds_witness :
    1 ≤ w1.current_trial ∧ w1.current_trial ≤ TOTAL_TRIALS ∧
    w1.current_trial - 1 < w1.balloon_colors_sequence.length :=
  tier_lookup_in_bounds w1 reach_w1 (Or.inl (by decide))

end Claims

end BARTGame
